import Mathlib

/-!
Verification of the pushforge builder library (packages/builder/lib) against
its specification.  The TypeScript sources are shallowly embedded: byte
buffers become lists of naturals below 256, the Web Crypto primitives
(ECDH, HKDF-SHA256, AES-128-GCM, ECDSA) are an abstract provider record,
randomness (salt bytes, the generated ephemeral key pair and the padding
draw) is passed in explicitly, and every provider invocation is recorded in
an operation trace so that ordering claims can be stated.  Fallible code
returns Except over an error type with one constructor per throw site.
-/

deriving instance DecidableEq for Except

namespace PushForge

/-- Bytes are modelled as natural numbers below 256 (contents of a Uint8Array). -/
def allBytes (l : List Nat) : Prop := ∀ x ∈ l, x < 256

instance (l : List Nat) : Decidable (allBytes l) :=
  inferInstanceAs (Decidable (∀ x ∈ l, x < 256))

/-- One constructor per throw site of the builder sources. -/
inductive JsError where
  | invalidJwkKty (got : Option String)
  | invalidJwkCrv (got : Option String)
  | invalidJwkX
  | invalidJwkY
  | invalidJwkD
  | invalidUrl (endpoint : String)
  | nonHttpsEndpoint (protocol : String)
  | invalidTTL
  | invalidB64Input
  | malformedB64
  | badAuthLength (got : Nat)
  | badP256Length (got : Nat)
  | badP256FirstByte (got : Nat)
  | payloadTooLarge (got : Nat)
deriving DecidableEq

/-- Provider operations, recorded in invocation order. -/
inductive Op where
  | getRandomValues (n : Nat)
  | generateKey
  | importKey
  | deriveBitsECDH
  | deriveBitsHKDF
  | exportKey
  | aesGcmEncrypt
  | ecdsaSign
deriving DecidableEq

/-- UTF-8 encoding of a single character (what TextEncoder produces). -/
def charUtf8 (c : Char) : List Nat :=
  let n := c.toNat
  if n < 128 then [n]
  else if n < 2048 then [192 + n / 64, 128 + n % 64]
  else if n < 65536 then [224 + n / 4096, 128 + n / 64 % 64, 128 + n % 64]
  else [240 + n / 262144, 128 + n / 4096 % 64, 128 + n / 64 % 64, 128 + n % 64]

/-- TextEncoder().encode — the UTF-8 bytes of a string. -/
def utf8Bytes (s : String) : List Nat := (s.data.map charUtf8).flatten

/-! ## base64 / base64url (lib/base64.ts) -/

def b64Alphabet : List Char :=
  "ABCDEFGHIJKLMNOPQRSTUVWXYZabcdefghijklmnopqrstuvwxyz0123456789+/".data

def b64Char (n : Nat) : Char := b64Alphabet.getD n 'A'

def b64IndexAux (c : Char) : List Char → Nat → Option Nat
  | [], _ => none
  | d :: rest, i => if d = c then some i else b64IndexAux c rest (i + 1)

def b64Index (c : Char) : Option Nat := b64IndexAux c b64Alphabet 0

/-- Standard base64 encoding of a byte list (the behaviour of btoa and of
Buffer on binary strings): three input bytes become four alphabet
characters; a final group of one or two bytes is completed with pad
characters. -/
def base64EncodeBytes : List Nat → List Char
  | [] => []
  | [b1] => [b64Char (b1 / 4), b64Char (b1 % 4 * 16), '=', '=']
  | [b1, b2] => [b64Char (b1 / 4), b64Char (b1 % 4 * 16 + b2 / 16), b64Char (b2 % 16 * 4), '=']
  | b1 :: b2 :: b3 :: rest =>
    b64Char (b1 / 4) :: b64Char (b1 % 4 * 16 + b2 / 16) ::
      b64Char (b2 % 16 * 4 + b3 / 64) :: b64Char (b3 % 64) :: base64EncodeBytes rest

/-- Standard base64 decoding of a padded character list, four characters at
a time; pad characters are accepted only at the end of the input. -/
def base64DecodeChunks : List Char → Option (List Nat)
  | [] => some []
  | c1 :: c2 :: c3 :: c4 :: rest =>
    match b64Index c1, b64Index c2 with
    | some n1, some n2 =>
      if c3 = '=' then
        if c4 = '=' ∧ rest = [] then some [n1 * 4 + n2 / 16] else none
      else
        match b64Index c3 with
        | some n3 =>
          if c4 = '=' then
            if rest = [] then some [n1 * 4 + n2 / 16, n2 % 16 * 16 + n3 / 4] else none
          else
            match b64Index c4, base64DecodeChunks rest with
            | some n4, some tail =>
              some ((n1 * 4 + n2 / 16) :: (n2 % 16 * 16 + n3 / 4) :: (n3 % 4 * 64 + n4) :: tail)
            | _, _ => none
        | none => none
    | _, _ => none
  | _ => none

/-- The per-character substitution of base64UrlEncode. -/
def urlSafe (c : Char) : Char := if c = '+' then '-' else if c = '/' then '_' else c

/-- The per-character substitution of base64UrlDecodeString. -/
def urlUnsafe (c : Char) : Char := if c = '-' then '+' else if c = '_' then '/' else c

/-- base64UrlEncode (lib/base64.ts): standard base64 with pad characters
removed, plus replaced by minus and slash by underscore. -/
def base64UrlEncode (bytes : List Nat) : String :=
  ⟨((base64EncodeBytes bytes).filter (fun c => c != '=')).map urlSafe⟩

/-- base64UrlDecode (lib/base64.ts): rejects an empty input (the falsiness
check in base64UrlDecodeString), restores plus and slash, re-appends the
pad characters that encoding removed, and decodes. -/
def base64UrlDecode (input : String) : Except JsError (List Nat) :=
  if input.data = [] then .error JsError.invalidB64Input
  else
    let t := input.data.map urlUnsafe
    let padded := t ++ List.replicate ((4 - input.data.length % 4) % 4) '='
    match base64DecodeChunks padded with
    | some bytes => .ok bytes
    | none => .error JsError.malformedB64

/-! ## Data model (lib/types.ts) -/

structure PushSubscriptionKey where
  p256dh : String
  auth : String
deriving DecidableEq

structure PushSubscription where
  endpoint : String
  keys : PushSubscriptionKey
deriving DecidableEq

structure JWK where
  kty : Option String
  crv : Option String
  x : Option String
  y : Option String
  d : Option String
deriving DecidableEq

structure JwtData where
  aud : String
  exp : Int
  sub : String
deriving DecidableEq

structure MsgOptions where
  ttl : Option Int
  topic : Option String
  urgency : Option String
deriving DecidableEq

structure PushMessage (α : Type) where
  payload : α
  adminContact : String
  options : Option MsgOptions

structure PushOptions where
  jwk : JWK
  jwt : JwtData
  payload : String
  ttl : Int
  topic : Option String
  urgency : Option String

/-- An ECDH key pair as produced by generateKey; both handles are modelled
by their raw exported bytes (the public key is the 65-byte uncompressed
point that exportKey raw returns). -/
structure CryptoKeyPair where
  publicKey : List Nat
  privateKey : List Nat
deriving DecidableEq

structure BuildResult where
  endpoint : String
  body : List Nat
  headers : List (String × String)
deriving DecidableEq

/-- The abstract Web Crypto provider: ECDH deriveBits, HKDF-SHA256
deriveBits (salt, key material, info, output byte count), AES-128-GCM
encrypt (key, iv, plaintext; the provider appends its own tag), and
ECDSA P-256 / SHA-256 signing with a JWK private key. -/
structure Provider where
  ecdh : List Nat → List Nat → List Nat
  hkdf : List Nat → List Nat → List Nat → Nat → List Nat
  aesGcmEncrypt : List Nat → List Nat → List Nat → List Nat
  ecdsaSign : JWK → List Nat → List Nat

/-! ## URL handling (shallow model of the WHATWG URL constructor, restricted
to the scheme://host shape that the endpoint validation and the origin
computation rely on) -/

structure URLParts where
  scheme : String
  host : String
deriving DecidableEq

def splitScheme : List Char → Option (List Char × List Char)
  | [] => none
  | c :: rest =>
    if c = ':' then some ([], rest)
    else
      match splitScheme rest with
      | some (a, b) => some (c :: a, b)
      | none => none

def isHostEnd (c : Char) : Bool := c = '/' || c = '?' || c = '#'

/-- Shallow model of new URL: a nonempty scheme before a colon, two slashes,
then a nonempty host running to the first slash, query or fragment. -/
def parseURL (s : String) : Option URLParts :=
  match splitScheme s.data with
  | none => none
  | some (schemeChars, rest) =>
    if schemeChars = [] then none
    else if rest.take 2 = ['/', '/'] then
      let host := (rest.drop 2).takeWhile (fun c => !(isHostEnd c))
      if host = [] then none else some ⟨⟨schemeChars⟩, ⟨host⟩⟩
    else none

/-- url.origin for the URLs this model parses. -/
def urlOrigin (s : String) : String :=
  match parseURL s with
  | some u => u.scheme ++ "://" ++ u.host
  | none => ""

/-! ## Input validation (src/unnamed/part_005: validatePrivateJWK,
validateEndpoint and the TTL check of buildPushHTTPRequest) -/

/-- JavaScript truthiness of an optional string field. -/
def strTruthy (s : Option String) : Bool :=
  match s with
  | some v => v ≠ ""
  | none => false

def validatePrivateJWK (jwk : JWK) : Except JsError Unit :=
  if jwk.kty ≠ some "EC" then Except.error (JsError.invalidJwkKty jwk.kty)
  else if jwk.crv ≠ some "P-256" then Except.error (JsError.invalidJwkCrv jwk.crv)
  else if strTruthy jwk.x = false then Except.error JsError.invalidJwkX
  else if strTruthy jwk.y = false then Except.error JsError.invalidJwkY
  else if strTruthy jwk.d = false then Except.error JsError.invalidJwkD
  else Except.ok ()

def validateEndpoint (endpoint : String) : Except JsError Unit :=
  match parseURL endpoint with
  | none => Except.error (JsError.invalidUrl endpoint)
  | some u =>
    if u.scheme = "https" then Except.ok ()
    else Except.error (JsError.nonHttpsEndpoint (u.scheme ++ ":"))

def MAX_TTL : Int := 24 * 60 * 60

def ttlOf (opts : Option MsgOptions) : Option Int := opts.bind MsgOptions.ttl

/-- The guard message.options?.ttl && message.options.ttl > MAX_TTL
(a supplied ttl of 0 is falsy and skips the check). -/
def ttlRejected (opts : Option MsgOptions) : Bool :=
  match ttlOf opts with
  | some t => decide (t ≠ 0 ∧ MAX_TTL < t)
  | none => false

/-- The resolution message.options?.ttl && message.options.ttl > 0
? message.options.ttl : MAX_TTL. -/
def resolveTtlValue (opts : Option MsgOptions) : Int :=
  match ttlOf opts with
  | some t => if t ≠ 0 ∧ 0 < t then t else MAX_TTL
  | none => MAX_TTL

/-- The jwt claims object built in buildPushHTTPRequest: aud is the
endpoint origin, exp is current unix time plus the resolved ttl, sub is
the administrator contact. -/
def buildJwtData (now : Int) (endpoint : String) (opts : Option MsgOptions)
    (contact : String) : JwtData :=
  ⟨urlOrigin endpoint, now + resolveTtlValue opts, contact⟩

/-- Truthiness-guarded spread used for topic and urgency in the options
bundle: the field is carried over only when it is a nonempty string. -/
def truthyStr (o : Option String) : Option String :=
  match o with
  | some s => if s = "" then none else some s
  | none => none

/-! ## JSON serialisation of the JWT header and claims (JSON.stringify on
the two object literals of lib/jwt.ts and part_005) -/

def hexDigit (n : Nat) : Char := "0123456789abcdef".data.getD n '0'

def jsonEscapeChar (c : Char) : List Char :=
  if c = '"' then ['\\', '"']
  else if c = '\\' then ['\\', '\\']
  else if c = Char.ofNat 8 then ['\\', 'b']
  else if c = Char.ofNat 9 then ['\\', 't']
  else if c = Char.ofNat 10 then ['\\', 'n']
  else if c = Char.ofNat 12 then ['\\', 'f']
  else if c = Char.ofNat 13 then ['\\', 'r']
  else if c.toNat < 32 then ['\\', 'u', '0', '0', hexDigit (c.toNat / 16), hexDigit (c.toNat % 16)]
  else [c]

def jsonString (s : String) : String := "\"" ++ ⟨s.data.flatMap jsonEscapeChar⟩ ++ "\""

/-- JSON.stringify of the header literal of createJwt. -/
def jwtHeaderJson : String := "\x7b\"typ\":\"JWT\",\"alg\":\"ES256\"\x7d"

/-- JSON.stringify of the claims object, with the literal key order
aud, exp, sub of part_005. -/
def jwtDataJson (d : JwtData) : String :=
  "\x7b\"aud\":" ++ jsonString d.aud ++ ",\"exp\":" ++ toString d.exp
    ++ ",\"sub\":" ++ jsonString d.sub ++ "\x7d"

/-- base64UrlEncode applied to a string input: btoa reads each UTF-16 code
unit as one byte (valid for the ASCII JSON produced here). -/
def base64UrlEncodeString (s : String) : String :=
  base64UrlEncode (s.data.map Char.toNat)

/-- A string is unpadded base64url when none of its characters is a pad,
plus or slash character. -/
def unpaddedB64url (s : String) : Prop :=
  ∀ c ∈ s.data, c ≠ '=' ∧ c ≠ '+' ∧ c ≠ '/'

/-! ## JWT signing (lib/jwt.ts) -/

def createJwt (p : Provider) (jwk : JWK) (jwtData : JwtData) : String × List Op :=
  let base64JwtInfo := base64UrlEncodeString jwtHeaderJson
  let base64JwtData := base64UrlEncodeString (jwtDataJson jwtData)
  let unsignedToken := base64JwtInfo ++ "." ++ base64JwtData
  let signature := base64UrlEncode (p.ecdsaSign jwk (utf8Bytes unsignedToken))
  (base64JwtInfo ++ "." ++ base64JwtData ++ "." ++ signature, [Op.importKey, Op.ecdsaSign])

/-! ## Server public key extraction (lib/utils.ts, getPublicKeyFromJwk) -/

def getPublicKeyFromJwk (jwk : JWK) : Except JsError String :=
  match jwk.x with
  | none => Except.error JsError.invalidB64Input
  | some xs =>
    match base64UrlDecode xs with
    | .error e => Except.error e
    | .ok xb =>
      match jwk.y with
      | none => Except.error JsError.invalidB64Input
      | some ys =>
        match base64UrlDecode ys with
        | .error e => Except.error e
        | .ok yb => Except.ok (base64UrlEncode (4 :: (xb ++ yb)))

/-! ## Payload pipeline (lib/payload.ts and shared-secret.ts) -/

def importClientKeys (keys : PushSubscriptionKey) :
    Except JsError (List Nat × List Nat) × List Op :=
  match base64UrlDecode keys.auth with
  | .error e => (.error e, [])
  | .ok auth =>
    if auth.length ≠ 16 then (.error (JsError.badAuthLength auth.length), [])
    else
      match base64UrlDecode keys.p256dh with
      | .error e => (.error e, [])
      | .ok decodedKey =>
        if decodedKey.length ≠ 65 then (.error (JsError.badP256Length decodedKey.length), [])
        else if decodedKey.headD 0 ≠ 4 then
          (.error (JsError.badP256FirstByte (decodedKey.headD 0)), [])
        else (.ok (auth, decodedKey), [Op.importKey])

def deriveSharedSecret (p : Provider) (clientPublicKey localPrivateKey : List Nat) :
    List Nat × List Op :=
  (p.ecdh clientPublicKey localPrivateKey, [Op.deriveBitsECDH, Op.importKey])

def derivePseudoRandomKey (p : Provider) (auth sharedSecret : List Nat) :
    List Nat × List Op :=
  (p.hkdf auth sharedSecret (utf8Bytes "Content-Encoding: auth\x00") 32,
   [Op.deriveBitsHKDF, Op.importKey])

/-- createContext: exportKey raw on both public-key handles, then the
"P-256" label, a two-byte length (a Uint8Array entry wraps modulo 256) and
the raw key bytes for the client key followed by the local key. -/
def createContext (clientPublicKey localPublicKey : List Nat) : List Nat × List Op :=
  (utf8Bytes "P-256\x00"
     ++ [0, clientPublicKey.length % 256] ++ clientPublicKey
     ++ [0, localPublicKey.length % 256] ++ localPublicKey,
   [Op.exportKey, Op.exportKey])

def deriveNonce (p : Provider) (pseudoRandomKey salt context : List Nat) :
    List Nat × List Op :=
  (p.hkdf salt pseudoRandomKey (utf8Bytes "Content-Encoding: nonce\x00" ++ context) 12,
   [Op.deriveBitsHKDF])

def deriveContentEncryptionKey (p : Provider) (pseudoRandomKey salt context : List Nat) :
    List Nat × List Op :=
  (p.hkdf salt pseudoRandomKey (utf8Bytes "Content-Encoding: aesgcm\x00" ++ context) 16,
   [Op.deriveBitsHKDF, Op.importKey])

def MAX_PAYLOAD_SIZE : Nat := 4078

def PADDING_LENGTH_PREFIX_SIZE : Nat := 2

/-- padPayload: randomDraw m models Math.floor(Math.random() * (m + 1)),
the uniform draw on 0..m; the padding buffer is a fresh ArrayBuffer, so its
bytes are zero except for the two-byte big-endian length written by
setUint16 (which truncates to 16 bits). -/
def padPayload (randomDraw : Nat → Nat) (payload : List Nat) :
    Except JsError (List Nat) :=
  let maxPayloadContentSize := MAX_PAYLOAD_SIZE - PADDING_LENGTH_PREFIX_SIZE
  if payload.length > maxPayloadContentSize then
    .error (JsError.payloadTooLarge payload.length)
  else
    let availableSpace := MAX_PAYLOAD_SIZE - PADDING_LENGTH_PREFIX_SIZE - payload.length
    let maxRandomPadding := min 100 availableSpace
    let paddingSize := if 0 < maxRandomPadding then randomDraw maxRandomPadding else 0
    .ok (([paddingSize % 65536 / 256, paddingSize % 256] ++ List.replicate paddingSize 0)
      ++ payload)

def encryptPayload (p : Provider) (randomDraw : Nat → Nat) (localKeys : CryptoKeyPair)
    (salt : List Nat) (payload : String) (target : PushSubscription) :
    Except JsError (List Nat) × List Op :=
  match importClientKeys target.keys with
  | (.error e, t0) => (.error e, t0)
  | (.ok (auth, clientP256), t0) =>
    let (sharedSecret, t1) := deriveSharedSecret p clientP256 localKeys.privateKey
    let (pseudoRandomKey, t2) := derivePseudoRandomKey p auth sharedSecret
    let (context, t3) := createContext clientP256 localKeys.publicKey
    let (nonce, t4) := deriveNonce p pseudoRandomKey salt context
    let (contentEncryptionKey, t5) := deriveContentEncryptionKey p pseudoRandomKey salt context
    let encodedPayload := utf8Bytes payload
    match padPayload randomDraw encodedPayload with
    | .error e => (.error e, t0 ++ t1 ++ t2 ++ t3 ++ t4 ++ t5)
    | .ok paddedPayload =>
      (.ok (p.aesGcmEncrypt contentEncryptionKey nonce paddedPayload),
       t0 ++ t1 ++ t2 ++ t3 ++ t4 ++ t5 ++ [Op.aesGcmEncrypt])

/-! ## VAPID headers (lib/vapid.ts) -/

def vapidHeaders (p : Provider) (options : PushOptions) (payloadLength : Nat)
    (salt : List Nat) (localPublicKey : List Nat) :
    Except JsError (List (String × String)) × List Op :=
  let localPublicKeyBase64 := base64UrlEncode localPublicKey
  match getPublicKeyFromJwk options.jwk with
  | .error e => (.error e, [Op.exportKey])
  | .ok serverPublicKey =>
    let (jwt, jwtTrace) := createJwt p options.jwk options.jwt
    let headerValues : List (String × String) :=
      [("Encryption", "salt=" ++ base64UrlEncode salt),
       ("Crypto-Key", "dh=" ++ localPublicKeyBase64),
       ("Content-Length", toString payloadLength),
       ("Content-Type", "application/octet-stream"),
       ("Content-Encoding", "aesgcm"),
       ("Authorization", "vapid t=" ++ jwt ++ ", k=" ++ serverPublicKey)]
    let headerValues := headerValues ++ [("TTL", toString options.ttl)]
    let headerValues := headerValues
      ++ (match options.topic with | some t => [("Topic", t)] | none => [])
    let headerValues := headerValues
      ++ (match options.urgency with | some u => [("Urgency", u)] | none => [])
    (.ok headerValues, Op.exportKey :: jwtTrace)

/-! ## buildPushHTTPRequest (src/unnamed/part_005) -/

def buildPushHTTPRequest {α : Type} (p : Provider) (stringify : α → String) (now : Int)
    (saltBytes : List Nat) (localKeys : CryptoKeyPair) (randomDraw : Nat → Nat)
    (privateJWK : JWK) (message : PushMessage α) (subscription : PushSubscription) :
    Except JsError BuildResult × List Op :=
  match validatePrivateJWK privateJWK with
  | .error e => (.error e, [])
  | .ok _ =>
    match validateEndpoint subscription.endpoint with
    | .error e => (.error e, [])
    | .ok _ =>
      if ttlRejected message.options then (.error JsError.invalidTTL, [])
      else
        let ttl := resolveTtlValue message.options
        let jwtData := buildJwtData now subscription.endpoint message.options
          message.adminContact
        let options : PushOptions :=
          { jwk := privateJWK, jwt := jwtData, payload := stringify message.payload,
            ttl := ttl,
            topic := truthyStr (message.options.bind MsgOptions.topic),
            urgency := truthyStr (message.options.bind MsgOptions.urgency) }
        let salt := saltBytes
        let (bodyE, encTrace) := encryptPayload p randomDraw localKeys salt
          options.payload subscription
        match bodyE with
        | .error e => (.error e, [Op.getRandomValues 16, Op.generateKey] ++ encTrace)
        | .ok body =>
          match vapidHeaders p options body.length salt localKeys.publicKey with
          | (.error e, hTrace) =>
            (.error e, [Op.getRandomValues 16, Op.generateKey] ++ encTrace ++ hTrace)
          | (.ok headers, hTrace) =>
            (.ok ⟨subscription.endpoint, body, headers⟩,
             [Op.getRandomValues 16, Op.generateKey] ++ encTrace ++ hTrace)

/-! ## Statement-side abbreviations for the derivation pipeline -/

/-- Two-byte big-endian encoding of a length. -/
def be16 (n : Nat) : List Nat := [n / 256 % 256, n % 256]

/-- The context byte string of the aesgcm scheme. -/
def contextOf (clientP256 localPub : List Nat) : List Nat :=
  utf8Bytes "P-256\x00"
    ++ [0, clientP256.length % 256] ++ clientP256
    ++ [0, localPub.length % 256] ++ localPub

def prkOf (p : Provider) (authB clientP256 priv : List Nat) : List Nat :=
  p.hkdf authB (p.ecdh clientP256 priv) (utf8Bytes "Content-Encoding: auth\x00") 32

def nonceOf (p : Provider) (salt authB clientP256 : List Nat) (kp : CryptoKeyPair) : List Nat :=
  p.hkdf salt (prkOf p authB clientP256 kp.privateKey)
    (utf8Bytes "Content-Encoding: nonce\x00" ++ contextOf clientP256 kp.publicKey) 12

def cekOf (p : Provider) (salt authB clientP256 : List Nat) (kp : CryptoKeyPair) : List Nat :=
  p.hkdf salt (prkOf p authB clientP256 kp.privateKey)
    (utf8Bytes "Content-Encoding: aesgcm\x00" ++ contextOf clientP256 kp.publicKey) 16

/-- Provider operations of a successful derivation, in invocation order. -/
def derivTrace : List Op :=
  [Op.importKey, Op.deriveBitsECDH, Op.importKey, Op.deriveBitsHKDF, Op.importKey,
   Op.exportKey, Op.exportKey, Op.deriveBitsHKDF, Op.deriveBitsHKDF, Op.importKey]

/-- The padding budget min(100, 4078 - 2 - payload length). -/
def maxRandomPaddingOf (payload : List Nat) : Nat :=
  min 100 (MAX_PAYLOAD_SIZE - PADDING_LENGTH_PREFIX_SIZE - payload.length)

/-- The padding length padPayload picks for a given draw. -/
def padSizeOf (randomDraw : Nat → Nat) (payload : List Nat) : Nat :=
  if 0 < maxRandomPaddingOf payload then randomDraw (maxRandomPaddingOf payload) else 0

/-- Modelled from the spec: section 4.3 frames the plaintext as a two-byte
big-endian padding length, that many random-filled bytes taken from the
random generator, then the payload bytes.  The source zero-fills instead;
this definition follows the spec wording for comparison. -/
def padPayloadSpecFill (paddingSize : Nat) (fill : Nat → Nat) (payload : List Nat) : List Nat :=
  be16 paddingSize ++ (List.range paddingSize).map fill ++ payload

/-! ## Concrete fixtures used by witnesses and counterexamples -/

def pT : Provider :=
  { ecdh := fun a b => a ++ b,
    hkdf := fun _ _ _ n => List.replicate n 1,
    aesGcmEncrypt := fun _ _ pt => pt,
    ecdsaSign := fun _ _ => [1, 2, 3] }

def authT : List Nat := List.replicate 16 3

def pkT : List Nat := 4 :: List.replicate 64 9

def xT : List Nat := List.replicate 32 1

def yT : List Nat := List.replicate 32 2

def dT : List Nat := List.replicate 32 5

def jwkT : JWK :=
  ⟨some "EC", some "P-256", some (base64UrlEncode xT), some (base64UrlEncode yT),
   some (base64UrlEncode dT)⟩

def epT : String := "https://push.example.com/sub/abc"

def subT : PushSubscription := ⟨epT, ⟨base64UrlEncode pkT, base64UrlEncode authT⟩⟩

def saltT : List Nat := List.replicate 16 7

def kpT : CryptoKeyPair := ⟨4 :: List.replicate 64 8, List.replicate 32 6⟩

/-! # Theorems -/

theorem utf8Bytes_replicate (n : Nat) (c : Char) (h : c.toNat < 128) :
    utf8Bytes ⟨List.replicate n c⟩ = List.replicate n c.toNat := by
  induction n with
  | zero => rfl
  | succ k ih =>
    have step : (⟨List.replicate (k + 1) c⟩ : String).data = c :: List.replicate k c := by
      simp [List.replicate_succ]
    have hc : charUtf8 c = [c.toNat] := by simp [charUtf8, h]
    simp only [utf8Bytes, step, List.map_cons, List.flatten_cons, hc, List.replicate_succ,
      List.singleton_append]
    exact congrArg (List.cons c.toNat) ih

theorem b64Index_b64Char : ∀ n, n < 64 → b64Index (b64Char n) = some n := by decide

theorem b64Char_ne_pad : ∀ n, n < 64 → b64Char n ≠ '=' := by decide

theorem b64Char_bne_pad : ∀ n, n < 64 → (b64Char n != '=') = true := by decide

theorem urlRound : ∀ n, n < 64 → urlUnsafe (urlSafe (b64Char n)) = b64Char n := by decide

theorem base_roundtrip : ∀ (b : List Nat), allBytes b →
    base64DecodeChunks (base64EncodeBytes b) = some b
  | [], _ => rfl
  | [b1], h => by
    have hb1 : b1 < 256 := h b1 (by simp)
    have e1 := b64Index_b64Char (b1 / 4) (by omega)
    have e2 := b64Index_b64Char (b1 % 4 * 16) (by omega)
    simp [base64EncodeBytes, base64DecodeChunks, e1, e2]
    omega
  | [b1, b2], h => by
    have hb1 : b1 < 256 := h b1 (by simp)
    have hb2 : b2 < 256 := h b2 (by simp)
    have e1 := b64Index_b64Char (b1 / 4) (by omega)
    have e2 := b64Index_b64Char (b1 % 4 * 16 + b2 / 16) (by omega)
    have e3 := b64Index_b64Char (b2 % 16 * 4) (by omega)
    have hne3 := b64Char_ne_pad (b2 % 16 * 4) (by omega)
    simp [base64EncodeBytes, base64DecodeChunks, e1, e2, e3, hne3]
    omega
  | b1 :: b2 :: b3 :: r1 :: rest, h => by
    have hb1 : b1 < 256 := h b1 (by simp)
    have hb2 : b2 < 256 := h b2 (by simp)
    have hb3 : b3 < 256 := h b3 (by simp)
    have hrest : allBytes (r1 :: rest) := fun x hx => h x (by simp [List.mem_cons] at hx ⊢; tauto)
    have e1 := b64Index_b64Char (b1 / 4) (by omega)
    have e2 := b64Index_b64Char (b1 % 4 * 16 + b2 / 16) (by omega)
    have e3 := b64Index_b64Char (b2 % 16 * 4 + b3 / 64) (by omega)
    have e4 := b64Index_b64Char (b3 % 64) (by omega)
    have hne3 := b64Char_ne_pad (b2 % 16 * 4 + b3 / 64) (by omega)
    have hne4 := b64Char_ne_pad (b3 % 64) (by omega)
    have ih := base_roundtrip (r1 :: rest) hrest
    simp [base64EncodeBytes, base64DecodeChunks, e1, e2, e3, e4, hne3, hne4, ih]
    refine ⟨by omega, by omega, by omega⟩
  | [b1, b2, b3], h => by
    have hb1 : b1 < 256 := h b1 (by simp)
    have hb2 : b2 < 256 := h b2 (by simp)
    have hb3 : b3 < 256 := h b3 (by simp)
    have e1 := b64Index_b64Char (b1 / 4) (by omega)
    have e2 := b64Index_b64Char (b1 % 4 * 16 + b2 / 16) (by omega)
    have e3 := b64Index_b64Char (b2 % 16 * 4 + b3 / 64) (by omega)
    have e4 := b64Index_b64Char (b3 % 64) (by omega)
    have hne3 := b64Char_ne_pad (b2 % 16 * 4 + b3 / 64) (by omega)
    have hne4 := b64Char_ne_pad (b3 % 64) (by omega)
    simp [base64EncodeBytes, base64DecodeChunks, e1, e2, e3, e4, hne3, hne4]
    refine ⟨by omega, by omega, by omega⟩

/-- Stripping the pad characters, applying the url-safe substitution, then
undoing it and re-appending the computed number of pad characters restores
the original base64 character list. -/
theorem padRestore : ∀ (b : List Nat), allBytes b →
    (((base64EncodeBytes b).filter (fun c => c != '=')).map urlSafe).map urlUnsafe
        ++ List.replicate
            ((4 - (((base64EncodeBytes b).filter (fun c => c != '=')).map urlSafe).length % 4) % 4)
            '='
      = base64EncodeBytes b
  | [], _ => rfl
  | [b1], h => by
    have hb1 : b1 < 256 := h b1 (by simp)
    have f1 := b64Char_bne_pad (b1 / 4) (by omega)
    have f2 := b64Char_bne_pad (b1 % 4 * 16) (by omega)
    have r1 := urlRound (b1 / 4) (by omega)
    have r2 := urlRound (b1 % 4 * 16) (by omega)
    simp [base64EncodeBytes, List.filter, f1, f2, r1, r2, List.replicate]
  | [b1, b2], h => by
    have hb1 : b1 < 256 := h b1 (by simp)
    have hb2 : b2 < 256 := h b2 (by simp)
    have f1 := b64Char_bne_pad (b1 / 4) (by omega)
    have f2 := b64Char_bne_pad (b1 % 4 * 16 + b2 / 16) (by omega)
    have f3 := b64Char_bne_pad (b2 % 16 * 4) (by omega)
    have r1 := urlRound (b1 / 4) (by omega)
    have r2 := urlRound (b1 % 4 * 16 + b2 / 16) (by omega)
    have r3 := urlRound (b2 % 16 * 4) (by omega)
    simp [base64EncodeBytes, List.filter, f1, f2, f3, r1, r2, r3, List.replicate]
  | b1 :: b2 :: b3 :: r1 :: rest, h => by
    have hb1 : b1 < 256 := h b1 (by simp)
    have hb2 : b2 < 256 := h b2 (by simp)
    have hb3 : b3 < 256 := h b3 (by simp)
    have hrest : allBytes (r1 :: rest) := fun x hx => h x (by simp [List.mem_cons] at hx ⊢; tauto)
    have f1 := b64Char_bne_pad (b1 / 4) (by omega)
    have f2 := b64Char_bne_pad (b1 % 4 * 16 + b2 / 16) (by omega)
    have f3 := b64Char_bne_pad (b2 % 16 * 4 + b3 / 64) (by omega)
    have f4 := b64Char_bne_pad (b3 % 64) (by omega)
    have u1 := urlRound (b1 / 4) (by omega)
    have u2 := urlRound (b1 % 4 * 16 + b2 / 16) (by omega)
    have u3 := urlRound (b2 % 16 * 4 + b3 / 64) (by omega)
    have u4 := urlRound (b3 % 64) (by omega)
    have ih := padRestore (r1 :: rest) hrest
    have hmod : ∀ L : Nat, (4 - (4 + L) % 4) % 4 = (4 - L % 4) % 4 := by omega
    simp only [base64EncodeBytes, List.filter, f1, f2, f3, f4, List.map_cons, List.length_cons,
      u1, u2, u3, u4, List.cons_append]
    have hlen : ∀ L : Nat, L + 1 + 1 + 1 + 1 = 4 + L := by omega
    rw [hlen, hmod]
    exact congrArg _ (congrArg _ (congrArg _ (congrArg _ ih)))
  | [b1, b2, b3], h => by
    have hb1 : b1 < 256 := h b1 (by simp)
    have hb2 : b2 < 256 := h b2 (by simp)
    have hb3 : b3 < 256 := h b3 (by simp)
    have f1 := b64Char_bne_pad (b1 / 4) (by omega)
    have f2 := b64Char_bne_pad (b1 % 4 * 16 + b2 / 16) (by omega)
    have f3 := b64Char_bne_pad (b2 % 16 * 4 + b3 / 64) (by omega)
    have f4 := b64Char_bne_pad (b3 % 64) (by omega)
    have u1 := urlRound (b1 / 4) (by omega)
    have u2 := urlRound (b1 % 4 * 16 + b2 / 16) (by omega)
    have u3 := urlRound (b2 % 16 * 4 + b3 / 64) (by omega)
    have u4 := urlRound (b3 % 64) (by omega)
    simp [base64EncodeBytes, List.filter, f1, f2, f3, f4, u1, u2, u3, u4]

/-- The encoder output is nonempty whenever the input is. -/
theorem b64urlEncode_ne_nil (b : List Nat) (h : allBytes b) (hne : b ≠ []) :
    (base64UrlEncode b).data ≠ [] := by
  match b, hne with
  | b1 :: rest, _ =>
    have hb1 : b1 < 256 := h b1 (by simp)
    have f1 := b64Char_bne_pad (b1 / 4) (by omega)
    match rest with
    | [] => simp [base64UrlEncode, base64EncodeBytes, List.filter, f1]
    | [b2] =>
      have hb2 : b2 < 256 := h b2 (by simp)
      have f2 := b64Char_bne_pad (b1 % 4 * 16 + b2 / 16) (by omega)
      simp [base64UrlEncode, base64EncodeBytes, List.filter, f1, f2]
    | b2 :: b3 :: rest2 =>
      simp only [base64UrlEncode, base64EncodeBytes, List.filter, f1]
      simp

/-- Round trip of base64UrlEncode and base64UrlDecode on nonempty byte lists. -/
theorem b64url_roundtrip (b : List Nat) (h : allBytes b) (hne : b ≠ []) :
    base64UrlDecode (base64UrlEncode b) = Except.ok b := by
  have hmk : (base64UrlEncode b).data
      = (((base64EncodeBytes b).filter (fun c => c != '=')).map urlSafe) := rfl
  have hnz := b64urlEncode_ne_nil b h hne
  unfold base64UrlDecode
  rw [if_neg hnz, hmk]
  have hlen : (((base64EncodeBytes b).filter (fun c => c != '=')).map urlSafe).length
      = (base64UrlEncode b).data.length := rfl
  rw [hlen, ← hmk]
  have hrestore := padRestore b h
  rw [hmk]
  simp only [hrestore, base_roundtrip b h]

/-- Every character the encoder emits avoids pad, plus and slash. -/
theorem b64url_charset (b : List Nat) :
    ∀ c ∈ (base64UrlEncode b).data, c ≠ '=' ∧ c ≠ '+' ∧ c ≠ '/' := by
  intro c hc
  have : c ∈ ((base64EncodeBytes b).filter (fun d => d != '=')).map urlSafe := hc
  obtain ⟨d, hd, rfl⟩ := List.mem_map.mp this
  have hdne : (d != '=') = true := (List.mem_filter.mp hd).2
  have hdne' : d ≠ '=' := by simpa using hdne
  unfold urlSafe
  by_cases h1 : d = '+'
  · simp [h1]
  · by_cases h2 : d = '/'
    · simp [h1, h2]
    · simp [h1, h2, hdne']

/-- importClientKeys succeeds on well-formed encoded keys and performs
exactly one provider import. -/
theorem importClientKeys_ok (authB pkB : List Nat) (hA16 : authB.length = 16)
    (hAB : allBytes authB) (hP65 : pkB.length = 65) (hPB : allBytes pkB)
    (hP0 : pkB.headD 0 = 4) :
    importClientKeys ⟨base64UrlEncode pkB, base64UrlEncode authB⟩
      = (Except.ok (authB, pkB), [Op.importKey]) := by
  have hAne : authB ≠ [] := by intro hh; rw [hh] at hA16; simp at hA16
  have hPne : pkB ≠ [] := by intro hh; rw [hh] at hP65; simp at hP65
  have h1 := b64url_roundtrip authB hAB hAne
  have h2 := b64url_roundtrip pkB hPB hPne
  unfold importClientKeys
  simp only [h1, h2, hA16, hP65, hP0]
  simp

/-- The trace of importClientKeys is empty on failure and a single import
on success. -/
theorem importClientKeys_trace (keys : PushSubscriptionKey) :
    (importClientKeys keys).2 = [] ∨ (importClientKeys keys).2 = [Op.importKey] := by
  unfold importClientKeys
  rcases hA : base64UrlDecode keys.auth with e1 | auth <;> simp only [hA]
  · simp
  · by_cases h16 : auth.length = 16
    · rcases hP : base64UrlDecode keys.p256dh with e2 | pk <;> simp only [hP]
      · simp [h16]
      · by_cases h65 : pk.length = 65
        · by_cases h4 : pk.head?.getD 0 = 4
          · simp [h16, h65, h4]
          · simp [h16, h65, h4]
        · simp [h16, h65]
    · simp [h16]

/-- importClientKeys records no provider operation on any failure. -/
theorem importClientKeys_err_trace (keys : PushSubscriptionKey) (e : JsError)
    (tr : List Op) (h : importClientKeys keys = (.error e, tr)) : tr = [] := by
  unfold importClientKeys at h
  rcases hA : base64UrlDecode keys.auth with e1 | auth <;> rw [hA] at h
  · simp at h; exact h.2
  · by_cases h16 : auth.length = 16
    · rcases hP : base64UrlDecode keys.p256dh with e2 | pk <;> simp only [hP] at h
      · simp [h16] at h; exact h.2
      · by_cases h4 : pk.head?.getD 0 = 4
        · by_cases h65 : pk.length = 65
          · simp [h16, h65, h4] at h
          · simp [h16, h65, h4] at h; exact h.2
        · by_cases h65 : pk.length = 65
          · simp [h16, h65, h4] at h; exact h.2
          · simp [h16, h65, h4] at h; exact h.2
    · simp [h16] at h; exact h.2

/-- The AES-GCM encryption operation never appears in an importClientKeys
trace. -/
theorem importClientKeys_no_enc (keys : PushSubscriptionKey) :
    Op.aesGcmEncrypt ∉ (importClientKeys keys).2 := by
  rcases importClientKeys_trace keys with h | h <;> simp [h]

/-- padPayload on an in-bounds payload: two length bytes, zero padding
bytes, then the payload. -/
theorem padPayload_eq_ok (randomDraw : Nat → Nat) (pb : List Nat)
    (hLen : pb.length ≤ 4076) :
    padPayload randomDraw pb
      = Except.ok (([padSizeOf randomDraw pb % 65536 / 256, padSizeOf randomDraw pb % 256]
          ++ List.replicate (padSizeOf randomDraw pb) 0) ++ pb) := by
  unfold padPayload padSizeOf maxRandomPaddingOf MAX_PAYLOAD_SIZE PADDING_LENGTH_PREFIX_SIZE
  rw [if_neg (by omega)]

/-- The full structure of encryptPayload on well-formed encoded keys. -/
theorem encryptPayload_eq (p : Provider) (draw : Nat → Nat) (kp : CryptoKeyPair)
    (salt : List Nat) (payloadStr ep : String) (authB pkB : List Nat)
    (hA16 : authB.length = 16) (hAB : allBytes authB)
    (hP65 : pkB.length = 65) (hPB : allBytes pkB) (hP0 : pkB.headD 0 = 4) :
    encryptPayload p draw kp salt payloadStr
        ⟨ep, ⟨base64UrlEncode pkB, base64UrlEncode authB⟩⟩
      = ((padPayload draw (utf8Bytes payloadStr)).map
           (p.aesGcmEncrypt (cekOf p salt authB pkB kp) (nonceOf p salt authB pkB kp)),
         derivTrace ++ (if (padPayload draw (utf8Bytes payloadStr)).isOk
           then [Op.aesGcmEncrypt] else [])) := by
  unfold encryptPayload
  rw [importClientKeys_ok authB pkB hA16 hAB hP65 hPB hP0]
  simp only [deriveSharedSecret, derivePseudoRandomKey, createContext, deriveNonce,
    deriveContentEncryptionKey, cekOf, nonceOf, prkOf, contextOf, derivTrace]
  cases hpad : padPayload draw (utf8Bytes payloadStr) with
  | error e => simp [Except.map, Except.isOk, Except.toBool]
  | ok padded => simp [Except.map, Except.isOk, Except.toBool]

/-- The complete artifact of a successful build: endpoint unchanged,
ciphertext body, the six fixed headers, the TTL header, and the optional
Topic and Urgency headers exactly when truthy. -/
theorem build_ok {α : Type} (p : Provider) (stringify : α → String) (now : Int)
    (saltBytes : List Nat) (kp : CryptoKeyPair) (draw : Nat → Nat) (jwk : JWK)
    (payload : α) (contact : String) (opts : Option MsgOptions) (ep : String)
    (authB pkB : List Nat) (serverPub : String)
    (hJwk : validatePrivateJWK jwk = Except.ok ())
    (hEp : validateEndpoint ep = Except.ok ())
    (hTtl : ttlRejected opts = false)
    (hPub : getPublicKeyFromJwk jwk = Except.ok serverPub)
    (hA16 : authB.length = 16) (hAB : allBytes authB)
    (hP65 : pkB.length = 65) (hPB : allBytes pkB) (hP0 : pkB.headD 0 = 4)
    (hLen : (utf8Bytes (stringify payload)).length ≤ 4076) :
    ∃ body,
      (encryptPayload p draw kp saltBytes (stringify payload)
          ⟨ep, ⟨base64UrlEncode pkB, base64UrlEncode authB⟩⟩).1 = Except.ok body ∧
      buildPushHTTPRequest p stringify now saltBytes kp draw jwk
          ⟨payload, contact, opts⟩ ⟨ep, ⟨base64UrlEncode pkB, base64UrlEncode authB⟩⟩
        = (Except.ok ⟨ep, body,
            [("Encryption", "salt=" ++ base64UrlEncode saltBytes),
             ("Crypto-Key", "dh=" ++ base64UrlEncode kp.publicKey),
             ("Content-Length", toString body.length),
             ("Content-Type", "application/octet-stream"),
             ("Content-Encoding", "aesgcm"),
             ("Authorization", "vapid t="
                ++ (createJwt p jwk (buildJwtData now ep opts contact)).1
                ++ ", k=" ++ serverPub),
             ("TTL", toString (resolveTtlValue opts))]
            ++ (match truthyStr (opts.bind MsgOptions.topic) with
                | some t => [("Topic", t)] | none => [])
            ++ (match truthyStr (opts.bind MsgOptions.urgency) with
                | some u => [("Urgency", u)] | none => [])⟩,
           [Op.getRandomValues 16, Op.generateKey] ++ (derivTrace ++ [Op.aesGcmEncrypt])
             ++ [Op.exportKey, Op.importKey, Op.ecdsaSign]) := by
  have hpad := padPayload_eq_ok draw (utf8Bytes (stringify payload)) hLen
  have henc := encryptPayload_eq p draw kp saltBytes (stringify payload) ep authB pkB
    hA16 hAB hP65 hPB hP0
  rw [hpad] at henc
  simp only [Except.map, Except.isOk, Except.toBool, if_true] at henc
  refine ⟨p.aesGcmEncrypt (cekOf p saltBytes authB pkB kp) (nonceOf p saltBytes authB pkB kp)
    ([padSizeOf draw (utf8Bytes (stringify payload)) % 65536 / 256,
      padSizeOf draw (utf8Bytes (stringify payload)) % 256]
      ++ List.replicate (padSizeOf draw (utf8Bytes (stringify payload))) 0
      ++ utf8Bytes (stringify payload)), ?_, ?_⟩
  · rw [henc]
  · unfold buildPushHTTPRequest
    simp only [hJwk, hEp, hTtl, henc, Bool.false_eq_true, if_false]
    unfold vapidHeaders
    simp only [hPub]
    simp [createJwt, buildJwtData]

/-! # Claim theorems -/

/-- C1: for every subscriber public key, ephemeral key pair, auth secret
and salt, the key derivation inside encryptPayload follows the Web Push
aesgcm scheme exactly: the PRK is HKDF-SHA256 of the ECDH shared secret
with the auth secret as salt and info "Content-Encoding: auth\x00"
(32 bytes); the context is ASCII "P-256\x00", a 2-byte big-endian length
and the raw subscriber public key, then a 2-byte big-endian length and the
raw ephemeral public key; the nonce is the 12-byte HKDF-SHA256 output of
the PRK with the per-message salt and info "Content-Encoding: nonce\x00"
concatenated with the context; and the content-encryption key is the
16-byte HKDF-SHA256 output with info "Content-Encoding: aesgcm\x00"
concatenated with the context. -/
theorem encryptPayload_derivation (p : Provider) (draw : Nat → Nat) (kp : CryptoKeyPair)
    (salt : List Nat) (payloadStr ep : String) (authB pkB : List Nat)
    (hA16 : authB.length = 16) (hAB : allBytes authB)
    (hP65 : pkB.length = 65) (hPB : allBytes pkB) (hP0 : pkB.headD 0 = 4)
    (hL65 : kp.publicKey.length = 65) :
    (encryptPayload p draw kp salt payloadStr
        ⟨ep, ⟨base64UrlEncode pkB, base64UrlEncode authB⟩⟩).1
      = (let sharedSecret := p.ecdh pkB kp.privateKey
         let prk := p.hkdf authB sharedSecret (utf8Bytes "Content-Encoding: auth\x00") 32
         let context := utf8Bytes "P-256\x00" ++ be16 pkB.length ++ pkB
             ++ be16 kp.publicKey.length ++ kp.publicKey
         let nonce := p.hkdf salt prk (utf8Bytes "Content-Encoding: nonce\x00" ++ context) 12
         let cek := p.hkdf salt prk (utf8Bytes "Content-Encoding: aesgcm\x00" ++ context) 16
         (padPayload draw (utf8Bytes payloadStr)).map (p.aesGcmEncrypt cek nonce)) := by
  have hctx : contextOf pkB kp.publicKey
      = utf8Bytes "P-256\x00" ++ be16 pkB.length ++ pkB
          ++ be16 kp.publicKey.length ++ kp.publicKey := by
    unfold contextOf be16
    rw [hP65, hL65]
  have henc := encryptPayload_eq p draw kp salt payloadStr ep authB pkB
    hA16 hAB hP65 hPB hP0
  rw [henc]
  simp only [cekOf, nonceOf, prkOf, hctx]

/-- C1 witness: the hypotheses hold at concrete keys and the derivation
equation applies there. -/
theorem encryptPayload_derivation_instance :
    authT.length = 16 ∧ pkT.length = 65 ∧ pkT.headD 0 = 4 ∧
    (encryptPayload pT (fun m => m) kpT saltT "x"
        ⟨epT, ⟨base64UrlEncode pkT, base64UrlEncode authT⟩⟩).1
      = (let sharedSecret := pT.ecdh pkT kpT.privateKey
         let prk := pT.hkdf authT sharedSecret (utf8Bytes "Content-Encoding: auth\x00") 32
         let context := utf8Bytes "P-256\x00" ++ be16 pkT.length ++ pkT
             ++ be16 kpT.publicKey.length ++ kpT.publicKey
         let nonce := pT.hkdf saltT prk (utf8Bytes "Content-Encoding: nonce\x00" ++ context) 12
         let cek := pT.hkdf saltT prk (utf8Bytes "Content-Encoding: aesgcm\x00" ++ context) 16
         (padPayload (fun m => m) (utf8Bytes "x")).map (pT.aesGcmEncrypt cek nonce)) :=
  ⟨by decide, by decide, by decide,
   encryptPayload_derivation pT (fun m => m) kpT saltT "x" epT authT pkT
     (by decide) (by decide) (by decide) (by decide) (by decide) (by decide)⟩

/-- C2 counterexample: the padding bytes the code emits are zero-filled,
not random-filled; at payload [7] with padding length 2 the code output
has zero bytes where the spec-modelled framing with random fill bytes 1
differs. -/
theorem padPayload_zeroFill_cex :
    padPayload (fun _ => 2) [7] = Except.ok [0, 2, 0, 0, 7] ∧
    padPayloadSpecFill 2 (fun _ => 1) [7] = [0, 2, 1, 1, 7] ∧
    ([0, 2, 0, 0, 7] : List Nat) ≠ [0, 2, 1, 1, 7] := by decide

/-- C2 (amended): for every payload of at most 4076 bytes, the plaintext
padPayload hands to AES-128-GCM is a 2-byte big-endian padding length n,
followed by n zero-valued bytes (the code zero-fills the fresh buffer; only
the length is random), followed by the payload, where n is the draw on
[0, min(100, 4078 - 2 - payload length)] and every value of that range is
attainable. -/
theorem padPayload_framing (draw : Nat → Nat) (payload : List Nat)
    (hLen : payload.length ≤ 4076) (hDraw : ∀ m, draw m ≤ m) :
    padPayload draw payload
        = Except.ok (be16 (padSizeOf draw payload)
            ++ List.replicate (padSizeOf draw payload) 0 ++ payload) ∧
    padSizeOf draw payload ≤ min 100 (4076 - payload.length) ∧
    ∀ k, k ≤ min 100 (4076 - payload.length) →
      padPayload (fun _ => k) payload
        = Except.ok (be16 k ++ List.replicate k 0 ++ payload) := by
  have hmx : maxRandomPaddingOf payload = min 100 (4076 - payload.length) := by
    unfold maxRandomPaddingOf MAX_PAYLOAD_SIZE PADDING_LENGTH_PREFIX_SIZE
    omega
  have hsz : padSizeOf draw payload ≤ min 100 (4076 - payload.length) := by
    unfold padSizeOf
    rw [hmx]
    split
    · exact hDraw _
    · omega
  refine ⟨?_, hsz, ?_⟩
  · have h := padPayload_eq_ok draw payload hLen
    rw [h]
    have hb : padSizeOf draw payload ≤ 100 := by omega
    unfold be16
    congr 1
    simp [List.append_assoc]
    omega
  · intro k hk
    have h := padPayload_eq_ok (fun _ => k) payload hLen
    have hfix : padSizeOf (fun _ => k) payload = k := by
      unfold padSizeOf
      rw [hmx]
      split
      · rfl
      · omega
    rw [h, hfix]
    have hb : k ≤ 100 := by omega
    unfold be16
    congr 1
    simp [List.append_assoc]
    omega

/-- C2 witness: applying the amended framing theorem at a concrete draw
and payload. -/
theorem padPayload_framing_instance :
    ([5] : List Nat).length ≤ 4076 ∧
    padPayload (fun m => m) [5]
      = Except.ok (be16 (padSizeOf (fun m => m) [5])
          ++ List.replicate (padSizeOf (fun m => m) [5]) 0 ++ [5]) :=
  ⟨by decide,
   (padPayload_framing (fun m => m) [5] (by decide) (fun m => Nat.le_refl m)).1⟩

/-- C3: padPayload rejects with the size-limit failure exactly when the
payload exceeds 4076 bytes; a 4076-byte payload is accepted with zero
padding budget and a 4077-byte payload is rejected; and when the encoded
payload exceeds 4076 bytes no AES-GCM encryption operation is ever
invoked by encryptPayload. -/
theorem padPayload_sizeLimit (draw : Nat → Nat) (payloadB : List Nat) (p : Provider)
    (kp : CryptoKeyPair) (salt : List Nat) (s : String) (target : PushSubscription) :
    (padPayload draw payloadB = Except.error (JsError.payloadTooLarge payloadB.length)
        ↔ 4076 < payloadB.length) ∧
    padPayload draw (List.replicate 4076 0) = Except.ok (0 :: 0 :: List.replicate 4076 0) ∧
    padPayload draw (List.replicate 4077 0)
      = Except.error (JsError.payloadTooLarge 4077) ∧
    (4076 < (utf8Bytes s).length →
      Op.aesGcmEncrypt ∉ (encryptPayload p draw kp salt s target).2) := by
  refine ⟨?_, ?_, ?_, ?_⟩
  · unfold padPayload MAX_PAYLOAD_SIZE PADDING_LENGTH_PREFIX_SIZE
    by_cases h : 4076 < payloadB.length
    · rw [if_pos (by omega)]
      simp [h]
    · rw [if_neg (by omega)]
      simp [h]
  · have h := padPayload_eq_ok draw (List.replicate 4076 0)
      (le_of_eq (by rw [List.length_replicate]))
    have hsz : padSizeOf draw (List.replicate 4076 0) = 0 := by
      unfold padSizeOf maxRandomPaddingOf MAX_PAYLOAD_SIZE PADDING_LENGTH_PREFIX_SIZE
      rw [List.length_replicate, if_neg (by decide)]
    rw [h, hsz]
    simp only [List.replicate_zero, List.append_nil, List.cons_append, List.nil_append]
  · unfold padPayload MAX_PAYLOAD_SIZE PADDING_LENGTH_PREFIX_SIZE
    rw [List.length_replicate, if_pos (by decide)]
  · intro h
    have hpadErr : padPayload draw (utf8Bytes s)
        = Except.error (JsError.payloadTooLarge (utf8Bytes s).length) := by
      unfold padPayload MAX_PAYLOAD_SIZE PADDING_LENGTH_PREFIX_SIZE
      rw [if_pos (by omega)]
    unfold encryptPayload
    rcases himp : importClientKeys target.keys with ⟨res, t0⟩
    have ht0 : Op.aesGcmEncrypt ∉ t0 := by
      have := importClientKeys_no_enc target.keys
      rw [himp] at this
      exact this
    cases res with
    | error e => simpa using ht0
    | ok pair =>
      rcases pair with ⟨auth, clientP256⟩
      simp only [deriveSharedSecret, derivePseudoRandomKey, createContext, deriveNonce,
        deriveContentEncryptionKey, hpadErr]
      simp [derivTrace, ht0, deriveSharedSecret, derivePseudoRandomKey, createContext,
        deriveNonce, deriveContentEncryptionKey]

/-- C4: the build rejects with the TTL error exactly when a ttl is supplied
and exceeds 86400; 86400 is accepted, 86401 is rejected; an absent or
non-positive ttl resolves to 86400; the resolved ttl is the one used for
the JWT expiry, and the TTL header carries the resolved ttl of the options
bundle. -/
theorem ttl_rules {α : Type} (p : Provider) (stringify : α → String) (now : Int)
    (salt : List Nat) (kp : CryptoKeyPair) (draw : Nat → Nat) (jwk : JWK)
    (payload : α) (contact : String) (opts : Option MsgOptions)
    (sub : PushSubscription) :
    (ttlRejected opts = true ↔ ∃ t, ttlOf opts = some t ∧ 86400 < t) ∧
    (ttlRejected (some ⟨some 86400, none, none⟩) = false
      ∧ resolveTtlValue (some ⟨some 86400, none, none⟩) = 86400) ∧
    ttlRejected (some ⟨some 86401, none, none⟩) = true ∧
    resolveTtlValue opts
      = (if 0 < (ttlOf opts).getD 0 then (ttlOf opts).getD 0 else 86400) ∧
    (buildJwtData now sub.endpoint opts contact).exp = now + resolveTtlValue opts ∧
    (validatePrivateJWK jwk = Except.ok () → validateEndpoint sub.endpoint = Except.ok () →
      ttlRejected opts = true →
      buildPushHTTPRequest p stringify now salt kp draw jwk ⟨payload, contact, opts⟩ sub
        = (Except.error JsError.invalidTTL, [])) ∧
    (∀ options plen s2 lpk hdrs tr,
      vapidHeaders p options plen s2 lpk = (Except.ok hdrs, tr) →
      ("TTL", toString options.ttl) ∈ hdrs) := by
  refine ⟨?_, by decide, by decide, ?_, rfl, ?_, ?_⟩
  · rcases hT : ttlOf opts with _ | t <;> simp [ttlRejected, hT, MAX_TTL]
    omega
  · rcases hT : ttlOf opts with _ | t <;> simp [resolveTtlValue, hT, MAX_TTL]
    split_ifs <;> omega
  · intro h1 h2 h3
    unfold buildPushHTTPRequest
    simp [h1, h2, h3]
  · intro options plen s2 lpk hdrs tr h
    unfold vapidHeaders at h
    rcases hPub : getPublicKeyFromJwk options.jwk with e | spub <;> rw [hPub] at h
    · simp at h
    · simp only [Prod.mk.injEq, Except.ok.injEq] at h
      rw [← h.1]
      simp

/-- C5: createJwt produces header64.claims64.sig64 where the header JSON is
the literal ES256 JWT header, the claims JSON has fields aud, exp, sub, the
signature is the provider ECDSA signature of the dot-joined first two
parts, all three parts are unpadded base64url; the claims the build signs
use aud = endpoint origin, sub = administrator contact, and an expiry of
now plus the resolved ttl, which never exceeds now + 86400 once the ttl
check has passed. -/
theorem createJwt_format (p : Provider) (jwk : JWK) (d : JwtData) (now : Int)
    (ep contact : String) (opts : Option MsgOptions) :
    ((createJwt p jwk d).1
        = base64UrlEncodeString "\x7b\"typ\":\"JWT\",\"alg\":\"ES256\"\x7d" ++ "."
            ++ base64UrlEncodeString (jwtDataJson d) ++ "."
            ++ base64UrlEncode (p.ecdsaSign jwk (utf8Bytes
                (base64UrlEncodeString "\x7b\"typ\":\"JWT\",\"alg\":\"ES256\"\x7d" ++ "."
                  ++ base64UrlEncodeString (jwtDataJson d))))) ∧
    jwtDataJson d
      = "\x7b\"aud\":" ++ jsonString d.aud ++ ",\"exp\":" ++ toString d.exp
          ++ ",\"sub\":" ++ jsonString d.sub ++ "\x7d" ∧
    unpaddedB64url (base64UrlEncodeString "\x7b\"typ\":\"JWT\",\"alg\":\"ES256\"\x7d") ∧
    unpaddedB64url (base64UrlEncodeString (jwtDataJson d)) ∧
    unpaddedB64url (base64UrlEncode (p.ecdsaSign jwk (utf8Bytes
        (base64UrlEncodeString "\x7b\"typ\":\"JWT\",\"alg\":\"ES256\"\x7d" ++ "."
          ++ base64UrlEncodeString (jwtDataJson d))))) ∧
    (buildJwtData now ep opts contact).aud = urlOrigin ep ∧
    (buildJwtData now ep opts contact).sub = contact ∧
    (ttlRejected opts = false → (buildJwtData now ep opts contact).exp ≤ now + 86400) := by
  refine ⟨rfl, rfl, ?_, ?_, ?_, rfl, rfl, ?_⟩
  · intro c hc
    exact b64url_charset _ c hc
  · intro c hc
    exact b64url_charset _ c hc
  · intro c hc
    exact b64url_charset _ c hc
  · intro h
    have hres : resolveTtlValue opts ≤ 86400 := by
      unfold ttlRejected MAX_TTL at h
      unfold resolveTtlValue MAX_TTL
      rcases hT : ttlOf opts with _ | t <;> simp only [hT] at h ⊢
      · omega
      · simp only [decide_eq_false_iff_not] at h
        split_ifs <;> omega
    unfold buildJwtData
    simp only
    omega

/-- C6 (amended): a successful build returns the endpoint unchanged, the
ciphertext body, and exactly the headers Content-Type, Content-Encoding,
Content-Length, Encryption, Crypto-Key, Authorization and TTL, plus Topic
and Urgency exactly when the message supplied them as nonempty strings
(JavaScript truthiness drops an empty-string topic). -/
theorem build_success_artifact {α : Type} (p : Provider) (stringify : α → String)
    (now : Int) (saltBytes : List Nat) (kp : CryptoKeyPair) (draw : Nat → Nat)
    (jwk : JWK) (payload : α) (contact : String) (opts : Option MsgOptions)
    (ep : String) (authB pkB : List Nat) (serverPub : String)
    (hJwk : validatePrivateJWK jwk = Except.ok ())
    (hEp : validateEndpoint ep = Except.ok ())
    (hTtl : ttlRejected opts = false)
    (hPub : getPublicKeyFromJwk jwk = Except.ok serverPub)
    (hA16 : authB.length = 16) (hAB : allBytes authB)
    (hP65 : pkB.length = 65) (hPB : allBytes pkB) (hP0 : pkB.headD 0 = 4)
    (hLen : (utf8Bytes (stringify payload)).length ≤ 4076) :
    ∃ body,
      (encryptPayload p draw kp saltBytes (stringify payload)
          ⟨ep, ⟨base64UrlEncode pkB, base64UrlEncode authB⟩⟩).1 = Except.ok body ∧
      buildPushHTTPRequest p stringify now saltBytes kp draw jwk
          ⟨payload, contact, opts⟩ ⟨ep, ⟨base64UrlEncode pkB, base64UrlEncode authB⟩⟩
        = (Except.ok ⟨ep, body,
            [("Encryption", "salt=" ++ base64UrlEncode saltBytes),
             ("Crypto-Key", "dh=" ++ base64UrlEncode kp.publicKey),
             ("Content-Length", toString body.length),
             ("Content-Type", "application/octet-stream"),
             ("Content-Encoding", "aesgcm"),
             ("Authorization", "vapid t="
                ++ (createJwt p jwk (buildJwtData now ep opts contact)).1
                ++ ", k=" ++ serverPub),
             ("TTL", toString (resolveTtlValue opts))]
            ++ (match truthyStr (opts.bind MsgOptions.topic) with
                | some t => [("Topic", t)] | none => [])
            ++ (match truthyStr (opts.bind MsgOptions.urgency) with
                | some u => [("Urgency", u)] | none => [])⟩,
           [Op.getRandomValues 16, Op.generateKey] ++ (derivTrace ++ [Op.aesGcmEncrypt])
             ++ [Op.exportKey, Op.importKey, Op.ecdsaSign]) :=
  build_ok p stringify now saltBytes kp draw jwk payload contact opts ep authB pkB
    serverPub hJwk hEp hTtl hPub hA16 hAB hP65 hPB hP0 hLen

/-- C6 counterexample: a message that supplies the topic as the empty
string builds successfully, yet the Topic header is absent — the original
claim's "present exactly when the message supplied them" fails for an
empty-string topic. -/
theorem build_topic_empty_cex :
    ((some (⟨none, some "", none⟩ : MsgOptions)).bind MsgOptions.topic = some "") ∧
    ((buildPushHTTPRequest pT id 1700000000 saltT kpT (fun m => m) jwkT
        ⟨"\"hi\"", "mailto:a@b.c", some ⟨none, some "", none⟩⟩ subT).1.toOption.map
          (fun r => r.headers.map Prod.fst))
      = some ["Encryption", "Crypto-Key", "Content-Length", "Content-Type",
              "Content-Encoding", "Authorization", "TTL"] := by
  constructor
  · rfl
  · decide

/-- C6 witness: the amended artifact theorem applies at a fully concrete
successful build. -/
theorem build_success_artifact_instance :
    (buildPushHTTPRequest pT id 1700000000 saltT kpT (fun m => m) jwkT
        ⟨"\"hi\"", "mailto:a@b.c", none⟩ subT).1.isOk = true := by
  obtain ⟨body, h1, h2⟩ := build_success_artifact pT id 1700000000 saltT kpT (fun m => m)
    jwkT "\"hi\"" "mailto:a@b.c" none epT authT pkT (base64UrlEncode (4 :: (xT ++ yT)))
    (by decide) (by decide) (by decide) (by decide) (by decide) (by decide) (by decide)
    (by decide) (by decide) (by decide)
  show (buildPushHTTPRequest pT id 1700000000 saltT kpT (fun m => m) jwkT
      ⟨"\"hi\"", "mailto:a@b.c", none⟩
      ⟨epT, ⟨base64UrlEncode pkT, base64UrlEncode authT⟩⟩).1.isOk = true
  rw [h2]
  rfl

/-- C7: importClientKeys accepts encoded subscriber keys exactly when the
auth secret is 16 bytes and the public key is 65 bytes starting with 0x04;
auth secrets of 15 or 17 bytes and public keys of 64 or 66 bytes, or with
another first byte, are rejected. -/
theorem importClientKeys_iff (authB pkB : List Nat) (hAB : allBytes authB)
    (hPB : allBytes pkB) :
    ((importClientKeys ⟨base64UrlEncode pkB, base64UrlEncode authB⟩).1
        = Except.ok (authB, pkB)
      ↔ (authB.length = 16 ∧ pkB.length = 65 ∧ pkB.headD 0 = 4)) ∧
    (importClientKeys ⟨base64UrlEncode (4 :: List.replicate 64 1),
        base64UrlEncode (List.replicate 15 1)⟩).1
      = Except.error (JsError.badAuthLength 15) ∧
    (importClientKeys ⟨base64UrlEncode (4 :: List.replicate 64 1),
        base64UrlEncode (List.replicate 17 1)⟩).1
      = Except.error (JsError.badAuthLength 17) ∧
    (importClientKeys ⟨base64UrlEncode (4 :: List.replicate 63 1),
        base64UrlEncode (List.replicate 16 1)⟩).1
      = Except.error (JsError.badP256Length 64) ∧
    (importClientKeys ⟨base64UrlEncode (4 :: List.replicate 65 1),
        base64UrlEncode (List.replicate 16 1)⟩).1
      = Except.error (JsError.badP256Length 66) ∧
    (importClientKeys ⟨base64UrlEncode (5 :: List.replicate 64 1),
        base64UrlEncode (List.replicate 16 1)⟩).1
      = Except.error (JsError.badP256FirstByte 5) := by
  refine ⟨?_, by decide, by decide, by decide, by decide, by decide⟩
  constructor
  · intro h
    by_cases hA : authB = []
    · subst hA
      simp [importClientKeys, base64UrlEncode, base64EncodeBytes, base64UrlDecode] at h
    · have h1 := b64url_roundtrip authB hAB hA
      by_cases hP : pkB = []
      · subst hP
        unfold importClientKeys at h
        simp only [h1] at h
        by_cases h16 : authB.length = 16
        · rw [if_neg (not_not_intro h16)] at h
          simp [base64UrlEncode, base64EncodeBytes, base64UrlDecode] at h
        · rw [if_pos h16] at h
          simp at h
      · have h2 := b64url_roundtrip pkB hPB hP
        unfold importClientKeys at h
        simp only [h1, h2] at h
        by_cases h16 : authB.length = 16
        · rw [if_neg (not_not_intro h16)] at h
          by_cases h65 : pkB.length = 65
          · rw [if_neg (not_not_intro h65)] at h
            by_cases h4 : pkB.headD 0 = 4
            · exact ⟨h16, h65, h4⟩
            · rw [if_pos h4] at h
              simp at h
          · rw [if_pos h65] at h
            simp at h
        · rw [if_pos h16] at h
          simp at h
  · rintro ⟨h1, h2, h3⟩
    rw [importClientKeys_ok authB pkB h1 hAB h2 hPB h3]

/-- C7 witness: the acceptance criterion applies at concrete keys. -/
theorem importClientKeys_iff_instance :
    allBytes authT ∧ allBytes pkT ∧
    (importClientKeys ⟨base64UrlEncode pkT, base64UrlEncode authT⟩).1
      = Except.ok (authT, pkT) :=
  ⟨by decide, by decide,
   ((importClientKeys_iff authT pkT (by decide) (by decide)).1).mpr (by decide)⟩

/-- C8 (amended): identity-key, endpoint and TTL failures abort the build
before any randomness is drawn or provider operation invoked (empty trace);
a subscriber-key failure aborts after the salt draw and ephemeral key
generation but before any provider import, derivation, encryption or
signing call. -/
theorem build_failfast {α : Type} (p : Provider) (stringify : α → String) (now : Int)
    (salt : List Nat) (kp : CryptoKeyPair) (draw : Nat → Nat) (jwk : JWK)
    (payload : α) (contact : String) (opts : Option MsgOptions)
    (sub : PushSubscription) :
    (∀ e, validatePrivateJWK jwk = Except.error e →
      buildPushHTTPRequest p stringify now salt kp draw jwk ⟨payload, contact, opts⟩ sub
        = (Except.error e, [])) ∧
    (validatePrivateJWK jwk = Except.ok () →
      ∀ e, validateEndpoint sub.endpoint = Except.error e →
      buildPushHTTPRequest p stringify now salt kp draw jwk ⟨payload, contact, opts⟩ sub
        = (Except.error e, [])) ∧
    (validatePrivateJWK jwk = Except.ok () → validateEndpoint sub.endpoint = Except.ok () →
      ttlRejected opts = true →
      buildPushHTTPRequest p stringify now salt kp draw jwk ⟨payload, contact, opts⟩ sub
        = (Except.error JsError.invalidTTL, [])) ∧
    (validatePrivateJWK jwk = Except.ok () → validateEndpoint sub.endpoint = Except.ok () →
      ttlRejected opts = false →
      ∀ e tr, importClientKeys sub.keys = (Except.error e, tr) →
      buildPushHTTPRequest p stringify now salt kp draw jwk ⟨payload, contact, opts⟩ sub
        = (Except.error e, [Op.getRandomValues 16, Op.generateKey])) := by
  refine ⟨?_, ?_, ?_, ?_⟩
  · intro e he
    unfold buildPushHTTPRequest
    simp [he]
  · intro h1 e he
    unfold buildPushHTTPRequest
    simp [h1, he]
  · intro h1 h2 h3
    unfold buildPushHTTPRequest
    simp [h1, h2, h3]
  · intro h1 h2 h3 e tr he
    have htr : tr = [] := importClientKeys_err_trace sub.keys e tr he
    subst htr
    unfold buildPushHTTPRequest encryptPayload
    simp [h1, h2, h3, he]

/-- C8 counterexample: with everything valid except a 15-byte auth secret,
the build fails with the subscriber-key error, but the trace shows the
random salt was drawn and the ephemeral key pair generated first —
refuting "no random salt is drawn, no ephemeral key pair is generated". -/
theorem build_cryptoWork_cex :
    buildPushHTTPRequest pT id 1700000000 saltT kpT (fun m => m) jwkT
        ⟨"\"hi\"", "mailto:a@b.c", none⟩
        ⟨epT, ⟨base64UrlEncode pkT, base64UrlEncode (List.replicate 15 3)⟩⟩
      = (Except.error (JsError.badAuthLength 15), [Op.getRandomValues 16, Op.generateKey]) ∧
    ([Op.getRandomValues 16, Op.generateKey] : List Op) ≠ [] := by decide

/-- C8 witness: the empty-trace part applies at a concrete invalid
identity key. -/
theorem build_failfast_instance :
    buildPushHTTPRequest pT id 0 saltT kpT (fun m => m)
        ⟨some "RSA", some "P-256", some "AA", some "AA", some "AA"⟩
        ⟨"\"x\"", "mailto:a@b.c", none⟩ subT
      = (Except.error (JsError.invalidJwkKty (some "RSA")), []) :=
  (build_failfast pT id 0 saltT kpT (fun m => m)
      ⟨some "RSA", some "P-256", some "AA", some "AA", some "AA"⟩
      "\"x\"" "mailto:a@b.c" none subT).1
    (JsError.invalidJwkKty (some "RSA")) (by decide)

/-- C9 (amended): validatePrivateJWK accepts exactly the JWKs with kty EC,
crv P-256 and nonempty x, y and d fields; it does not check that the
coordinates decode to 32-byte values. -/
theorem validatePrivateJWK_iff (jwk : JWK) :
    validatePrivateJWK jwk = Except.ok ()
      ↔ (jwk.kty = some "EC" ∧ jwk.crv = some "P-256"
          ∧ strTruthy jwk.x = true ∧ strTruthy jwk.y = true ∧ strTruthy jwk.d = true) := by
  unfold validatePrivateJWK
  split_ifs with h1 h2 h3 h4 h5 <;> simp_all

/-- C9 counterexample: a JWK whose x coordinate decodes to a single byte
passes validation, refuting the claimed 32-byte decode check. -/
theorem validatePrivateJWK_len_cex :
    validatePrivateJWK ⟨some "EC", some "P-256", some "AA", some "AA", some "AA"⟩
      = Except.ok () ∧
    base64UrlDecode "AA" = Except.ok [0] ∧
    ([0] : List Nat).length ≠ 32 := by decide

/-- C9 witness: the amended acceptance criterion at a concrete valid key. -/
theorem validatePrivateJWK_iff_instance :
    validatePrivateJWK jwkT = Except.ok () :=
  (validatePrivateJWK_iff jwkT).mpr (by decide)

/-- C10 (amended): decoding inverts encoding on every nonempty byte
sequence, and the encoder output never contains pad, plus or slash — the
empty sequence encodes to the empty string, which base64UrlDecode
rejects. -/
theorem b64url_props (b : List Nat) :
    (allBytes b → b ≠ [] → base64UrlDecode (base64UrlEncode b) = Except.ok b) ∧
    ∀ c ∈ (base64UrlEncode b).data, c ≠ '=' ∧ c ≠ '+' ∧ c ≠ '/' :=
  ⟨fun h hne => b64url_roundtrip b h hne, b64url_charset b⟩

/-- C10 counterexample: the empty byte sequence encodes to the empty
string, which the decoder rejects instead of returning the empty
sequence. -/
theorem b64url_empty_cex :
    base64UrlEncode ([] : List Nat) = "" ∧
    base64UrlDecode "" = Except.error JsError.invalidB64Input := by decide

/-- C10 witness: the round trip applies at a concrete nonempty sequence. -/
theorem b64url_props_instance :
    allBytes [1, 2, 3] ∧ ([1, 2, 3] : List Nat) ≠ [] ∧
    base64UrlDecode (base64UrlEncode [1, 2, 3]) = Except.ok [1, 2, 3] :=
  ⟨by decide, by decide, (b64url_props [1, 2, 3]).1 (by decide) (by decide)⟩

/-- C3 witness: the no-encryption guarantee applies at a 4077-byte
payload. -/
theorem padPayload_sizeLimit_instance :
    4076 < (utf8Bytes ⟨List.replicate 4077 'a'⟩).length ∧
    Op.aesGcmEncrypt ∉ (encryptPayload pT (fun m => m) kpT saltT
      ⟨List.replicate 4077 'a'⟩ subT).2 := by
  have hlen : (utf8Bytes ⟨List.replicate 4077 'a'⟩).length = 4077 := by
    rw [utf8Bytes_replicate 4077 'a' (by decide), List.length_replicate]
  constructor
  · omega
  · exact (padPayload_sizeLimit (fun m => m) [] pT kpT saltT
      ⟨List.replicate 4077 'a'⟩ subT).2.2.2 (by omega)

/-- C4 witness: the TTL rejection applies at a concrete oversized ttl. -/
theorem ttl_rules_instance :
    buildPushHTTPRequest pT id 1700000000 saltT kpT (fun m => m) jwkT
        ⟨"\"x\"", "mailto:a@b.c", some ⟨some 86401, none, none⟩⟩ subT
      = (Except.error JsError.invalidTTL, []) :=
  (ttl_rules pT id 1700000000 saltT kpT (fun m => m) jwkT "\"x\"" "mailto:a@b.c"
      (some ⟨some 86401, none, none⟩) subT).2.2.2.2.2.1 (by decide) (by decide) (by decide)

/-- C5 witness: the expiry bound applies at a concrete resolved ttl. -/
theorem createJwt_format_instance :
    ttlRejected (some ⟨some 3600, none, none⟩) = false ∧
    (buildJwtData 1700000000 epT (some ⟨some 3600, none, none⟩) "mailto:a@b.c").exp
      ≤ 1700000000 + 86400 :=
  ⟨by decide,
   (createJwt_format pT jwkT ⟨"a", 0, "b"⟩ 1700000000 epT "mailto:a@b.c"
      (some ⟨some 3600, none, none⟩)).2.2.2.2.2.2.2 (by decide)⟩

end PushForge
